import Mathlib

/-!
Shallow embedding of the go-sql-lsh library (package sqllsh), a generic
SQL-backed storage layer for LSH signatures, together with proofs about its
schema generation, statement generation and operation façade.

The embedding follows `sqllsh.go`:
  * the pure string-assembly parts of `createTableStr`, `createIndexStmts`,
    `createInsertStmt` and `createQueryStmt` become Lean string functions;
  * the operation façade (`Insert`, `BatchInsert`, `Query`, `NewSqlLsh`)
    becomes explicit state passing over a list of table rows, with the
    relational backend modelled by the standard semantics of the generated
    statements: the `id` column is a primary key (duplicate ids are a
    constraint error), unset columns are SQL NULL, and an equality predicate
    `hv_p = v` is satisfied only by a non-NULL cell equal to `v`;
  * Go runtime panics (out-of-range slice indexing) are modelled as `none`
    at the outermost `Option` layer, while errors returned to the caller are
    carried inside the result value;
  * `db.Begin` and `tx.Commit` are modelled as succeeding; failure points the
    claims depend on (statement preparation, DDL execution, row insertion)
    are modelled explicitly, preparation and DDL via a `DbEnv` oracle.
-/

namespace SqlLsh

/-- Go `type Signature []uint`: a hash signature, an ordered list of
non-negative hash values. -/
abbrev Signature := List Nat

/-- One stored column value; `none` models SQL NULL (a nil parameter bound
by the driver). -/
abbrev Cell := Option Nat

/-- One table row: the `id` column followed by the `hv_*` cells. -/
abbrev Row := Int × List Cell

/-- Go `createTableStr` (sqllsh.go:171-179): the CREATE TABLE DDL, with the
`id INTEGER PRIMARY KEY` column followed by `hv_0 .. hv_{k*l-1} BIGINT`. -/
def createTableStr (k l : Nat) (tableName : String) : String :=
  let createSeg := "id INTEGER PRIMARY KEY" ::
    (List.range (k * l)).map (fun i => "hv_" ++ toString i ++ " BIGINT")
  "CREATE TABLE " ++ tableName ++ " (\n" ++ String.intercalate ",\n" createSeg ++ "\n);\n"

/-- The DDL string prepared for index `i` by Go `createIndexStmts`
(sqllsh.go:181-196): `CREATE INDEX ht_i ON <table> (hv_{k*i},...,hv_{k*i+k-1});`. -/
def createIndexStr (k : Nat) (tableName : String) (i : Nat) : String :=
  let seg := (List.range k).map (fun j => "hv_" ++ toString (k * i + j))
  "CREATE INDEX ht_" ++ toString i ++ " ON " ++ tableName ++ " (" ++
    String.intercalate "," seg ++ ");"

/-- Go `createIndexStmts` (sqllsh.go:181-196), pure part: the list of the l
index DDL strings prepared, in order i = 0 .. l-1. -/
def createIndexStrs (k l : Nat) (tableName : String) : List String :=
  (List.range l).map (createIndexStr k tableName)

/-- Go `createInsertStmt` (sqllsh.go:198-206), pure part: the parameterized
INSERT statement with k*l+1 placeholders produced by `varFmt`. -/
def createInsertStr (k l : Nat) (tableName : String) (varFmt : Nat → String) : String :=
  let insertSeg := (List.range (k * l + 1)).map varFmt
  "INSERT INTO " ++ tableName ++ " VALUES(" ++ String.intercalate "," insertSeg ++ ");"

/-- Go `createQueryStmt` (sqllsh.go:208-221), pure part: the parameterized
SELECT statement, an OR over l groups, group i an AND of the k equality
predicates `hv_p = varFmt p` for p = k*i+j, j = 0 .. k-1. -/
def createQueryStr (k l : Nat) (tableName : String) (varFmt : Nat → String) : String :=
  let querySeg := (List.range l).map (fun i =>
    "(" ++ String.intercalate " AND "
      ((List.range k).map (fun j =>
        "hv_" ++ toString (k * i + j) ++ " = " ++ varFmt (k * i + j))) ++ ")")
  "SELECT id FROM " ++ tableName ++ " WHERE" ++ String.intercalate " OR " querySeg ++ ";"

/-- Spec-side: the column positions of hash-table group (band) i, namely
`i*k .. i*k+k-1` ("group i occupies positions [i·k, i·k+k)"). -/
def bandColumns (k i : Nat) : List Nat := List.range' (i * k) k

/-- Spec-side rendering of the query contract: SELECT of the identifier
column, WHERE an OR across the l groups, group i an AND of equality
predicates on the columns of `bandColumns k i`, the parameter at position p
binding to column `hv_p`. -/
def specQueryStr (k l : Nat) (tableName : String) (varFmt : Nat → String) : String :=
  "SELECT id FROM " ++ tableName ++ " WHERE" ++
    String.intercalate " OR " ((List.range l).map (fun i =>
      "(" ++ String.intercalate " AND " ((bandColumns k i).map (fun p =>
        "hv_" ++ toString p ++ " = " ++ varFmt p)) ++ ")")) ++ ";"

/-- Spec-side rendering of the index contract: index `ht_i` covers exactly
the columns of band i, in order. -/
def specIndexStr (k : Nat) (tableName : String) (i : Nat) : String :=
  "CREATE INDEX ht_" ++ toString i ++ " ON " ++ tableName ++ " (" ++
    String.intercalate "," ((bandColumns k i).map (fun p => "hv_" ++ toString p)) ++ ");"

/-- The positions of the bound parameters of the generated query, in order of
appearance: group 0's columns, then group 1's, and so on. -/
def queryParamOrder (k l : Nat) : List Nat :=
  (List.range l).flatMap (bandColumns k)

/-- One storage interaction issued by an operation, in order. `execStmt`
covers executing a prepared DML/DDL statement inside the open transaction;
`runQuery` covers running the prepared SELECT. -/
inductive DbOp where
  | beginTx
  | execStmt
  | commitTx
  | rollbackTx
  | runQuery
deriving DecidableEq

/-- Result of an insert-side operation: the table contents afterwards, the
error returned to the caller (if any), and the storage interactions issued. -/
structure OpResult where
  rows : List Row
  err : Option String
  ops : List DbOp
deriving DecidableEq

/-- Modelled relational semantics of executing the generated INSERT for one
row against the visible table contents: the `id` column is the PRIMARY KEY,
so a duplicate id is a constraint violation (`none`); otherwise the row is
appended. -/
def execInsertRow (visible : List Row) (id : Int) (cells : List Cell) :
    Option (List Row) :=
  if visible.any (fun r => r.1 == id) then none
  else some (visible ++ [(id, cells)])

/-- Go `Insert` (sqllsh.go:82-107): length validation returns the
size-mismatch error before any storage call; otherwise begin, execute the
prepared insert with the id followed by the signature values, and commit,
rolling back if the execution fails. -/
def insertOp (k l : Nat) (id : Int) (sig : Signature) (rows : List Row) : OpResult :=
  if sig.length ≠ k * l then ⟨rows, some "Signature size mismatch", []⟩
  else
    match execInsertRow rows id (sig.map some) with
    | none => ⟨rows, some "constraint violation", [.beginTx, .execStmt, .rollbackTx]⟩
    | some rows2 => ⟨rows2, none, [.beginTx, .execStmt, .commitTx]⟩

/-- Go `BatchInsert`'s per-row argument construction (sqllsh.go:122-126):
a slice of k*l parameter slots is filled from the signature. A signature
longer than k*l writes past the end of the slice, a runtime panic (`none`);
a shorter one leaves the remaining slots as nil, bound as SQL NULL. -/
def padCells (kl : Nat) (sig : Signature) : Option (List Cell) :=
  if kl < sig.length then none
  else some (sig.map some ++ List.replicate (kl - sig.length) none)

/-- Outcome of `BatchInsert`'s validation prologue. -/
inductive BatchCheck where
  | panic
  | rejected (msg : String)
  | passed
deriving DecidableEq

/-- Go `BatchInsert` validation prologue (sqllsh.go:110-115): first the
count comparison, then the length of `sigs[0]` is compared with k*l —
indexing an empty slice there is a runtime panic. -/
def batchValidate (k l : Nat) (ids : List Int) (sigs : List Signature) : BatchCheck :=
  if sigs.length ≠ ids.length then .rejected "Number of signatures and ids mismatch"
  else
    match sigs with
    | [] => .panic
    | s0 :: _ => if s0.length ≠ k * l then .rejected "Signature size mismatch" else .passed

/-- Go `BatchInsert` insert loop (sqllsh.go:121-132) inside the open
transaction: builds each row's cells and executes the prepared insert.
Returns `none` on a panic while building a row, `some (none, n)` when the
n-th execution fails (the caller then rolls back), and
`some (some visible2, n)` with the buffered table contents and the number of
executions on success. -/
def batchLoop (kl : Nat) (pairs : List (Int × Signature)) (visible : List Row) :
    Option (Option (List Row) × Nat) :=
  match pairs with
  | [] => some (some visible, 0)
  | (id, sig) :: rest =>
    match padCells kl sig with
    | none => none
    | some cells =>
      match execInsertRow visible id cells with
      | none => some (none, 1)
      | some visible2 =>
        match batchLoop kl rest visible2 with
        | none => none
        | some (r, n) => some (r, n + 1)

/-- Go `BatchInsert` (sqllsh.go:109-139): validation, then one transaction
around the whole insert loop, committed on success and rolled back on the
first row failure. `none` models a runtime panic. -/
def batchInsertOp (k l : Nat) (ids : List Int) (sigs : List Signature)
    (rows : List Row) : Option OpResult :=
  match batchValidate k l ids sigs with
  | .panic => none
  | .rejected msg => some ⟨rows, some msg, []⟩
  | .passed =>
    match batchLoop (k * l) (ids.zip sigs) rows with
    | none => none
    | some (none, n) =>
      some ⟨rows, some "constraint violation",
        .beginTx :: (List.replicate n .execStmt ++ [.rollbackTx])⟩
    | some (some rows2, n) =>
      some ⟨rows2, none, .beginTx :: (List.replicate n .execStmt ++ [.commitTx])⟩

/-- Modelled relational semantics of one equality predicate `hv_p = v` of
the generated SELECT: satisfied only by a non-NULL cell equal to v. -/
def cellMatches (v : Cell) (q : Nat) : Bool := v == some q

/-- Modelled relational semantics of the WHERE clause of the generated
SELECT (sqllsh.go:208-221): some group i < l agrees on all k columns
`hv_{k*i+j}`. -/
def rowMatches (k l : Nat) (sig : Signature) (cells : List Cell) : Bool :=
  (List.range l).any (fun i => (List.range k).all (fun j =>
    cellMatches (cells.getD (k * i + j) none) (sig.getD (k * i + j) 0)))

/-- Modelled relational semantics of the generated SELECT: the ids of the
matching rows, in row order (the model fixes the result order to the table
order). -/
def matchingIds (k l : Nat) (sig : Signature) (rows : List Row) : List Int :=
  (rows.filter (fun r => rowMatches k l sig r.2)).map Prod.fst

/-- Go `Query` result loop (sqllsh.go:153-166): scan each id, skip it when
it is already in the transient set, otherwise emit it and add it to the
set (the map is modelled as a list). -/
def emitLoop : List Int → List Int → List Int
  | [], _ => []
  | id :: rest, seen =>
    if seen.contains id then emitLoop rest seen
    else id :: emitLoop rest (id :: seen)

/-- Spec-side first-occurrence deduplication: keep each identifier's first
occurrence in order and suppress all repeats. -/
def keepFirst : List Int → List Int
  | [] => []
  | x :: xs => x :: (keepFirst xs).filter (fun y => y ≠ x)

/-- Result of a query: the ids emitted to the caller's channel in order, the
error returned, and the storage interactions issued. -/
structure QueryResult where
  out : List Int
  err : Option String
  ops : List DbOp
deriving DecidableEq

/-- Go `Query` (sqllsh.go:141-169): length validation returns the
size-mismatch error before any storage call; otherwise the prepared SELECT
runs with the signature bound in order and the result loop emits ids with
façade-side deduplication. -/
def queryOp (k l : Nat) (sig : Signature) (rows : List Row) : QueryResult :=
  if sig.length ≠ k * l then ⟨[], some "Signature size mismatch", []⟩
  else ⟨emitLoop (matchingIds k l sig rows) [], none, [.runQuery]⟩

/-- Oracle for the storage engine's failure behaviour during construction:
the error (if any) from executing a DDL string, and from preparing a
statement string. -/
structure DbEnv where
  execErr : String → Option String
  prepErr : String → Option String

/-- Result of `NewSqlLsh`: the error returned, whether the CREATE TABLE
transaction was committed (the table persists), and the DDL-transaction
interactions issued. -/
structure ConstructResult where
  err : Option String
  tableCommitted : Bool
  ops : List DbOp
deriving DecidableEq

/-- A storage engine in which every execution and preparation succeeds. -/
def okEnv : DbEnv := ⟨fun _ => none, fun _ => none⟩

/-- A storage engine in which DDL execution succeeds but every statement
preparation fails. -/
def failPrepEnv : DbEnv := ⟨fun _ => none, fun _ => some "prepare failed"⟩

/-- Go `NewSqlLsh` (sqllsh.go:24-60): no parameter validation; begin a
transaction, execute the CREATE TABLE DDL (rolling back on failure), commit
it, then prepare the insert statement, the query statement and the l index
statements in that order, returning the first preparation error — after the
table's transaction has already been committed. -/
def newSqlLsh (k l : Nat) (tableName : String) (varFmt : Nat → String)
    (env : DbEnv) : ConstructResult :=
  match env.execErr (createTableStr k l tableName) with
  | some e => ⟨some e, false, [.beginTx, .execStmt, .rollbackTx]⟩
  | none =>
    match env.prepErr (createInsertStr k l tableName varFmt) with
    | some e => ⟨some e, true, [.beginTx, .execStmt, .commitTx]⟩
    | none =>
      match env.prepErr (createQueryStr k l tableName varFmt) with
      | some e => ⟨some e, true, [.beginTx, .execStmt, .commitTx]⟩
      | none =>
        match (createIndexStrs k l tableName).findSome? env.prepErr with
        | some e => ⟨some e, true, [.beginTx, .execStmt, .commitTx]⟩
        | none => ⟨none, true, [.beginTx, .execStmt, .commitTx]⟩

end SqlLsh

namespace SqlLsh

theorem bandColumns_eq_map (k i : Nat) :
    bandColumns k i = (List.range k).map (fun j => k * i + j) := by
  simp [bandColumns, List.range'_eq_map_range, Nat.mul_comm]

theorem queryParamOrder_eq_range (k l : Nat) :
    queryParamOrder k l = List.range (k * l) := by
  induction l with
  | zero => simp [queryParamOrder]
  | succ n ih =>
    have h : queryParamOrder k (n + 1) = queryParamOrder k n ++ bandColumns k n := by
      simp [queryParamOrder, List.range_succ]
    rw [h, ih, bandColumns, List.range_eq_range', List.range_eq_range']
    have h2 := List.range'_append 0 (k * n) k 1
    simp only [Nat.one_mul, Nat.zero_add] at h2
    rw [Nat.mul_comm n k, h2, Nat.mul_succ, Nat.add_comm k (k * n)]

/-- C1: for every k, l, table name and placeholder function, the generated
query statement is the SELECT of the `id` column whose WHERE clause is an OR
across exactly l groups, group i an AND of the k equality predicates on
columns `hv_{i*k} .. hv_{i*k+k-1}`, and its bound parameters appear in
exactly the positions 0 .. k*l-1 in order, the parameter at position p
binding to column `hv_p`. -/
theorem createQueryStr_spec (k l : Nat) (tableName : String) (varFmt : Nat → String) :
    createQueryStr k l tableName varFmt = specQueryStr k l tableName varFmt ∧
    queryParamOrder k l = List.range (k * l) ∧
    (queryParamOrder k l).length = k * l := by
  refine ⟨?_, queryParamOrder_eq_range k l, ?_⟩
  · simp [createQueryStr, specQueryStr, bandColumns_eq_map, List.map_map, Function.comp_def]
  · rw [queryParamOrder_eq_range]; simp

/-- C3: the generated CREATE TABLE statement declares `id` as primary key
followed by exactly the k*l wide-integer (BIGINT) columns `hv_0 ..
hv_{k*l-1}` in order, and the generated index DDL is exactly the l
statements `ht_0 .. ht_{l-1}`, statement i covering exactly the columns
`hv_{i*k} .. hv_{i*k+k-1}` in order. -/
theorem createSchema_spec (k l : Nat) (tableName : String) :
    createTableStr k l tableName =
      "CREATE TABLE " ++ tableName ++ " (\n" ++
        String.intercalate ",\n" ("id INTEGER PRIMARY KEY" ::
          (List.range (k * l)).map (fun i => "hv_" ++ toString i ++ " BIGINT")) ++
        "\n);\n" ∧
    createIndexStrs k l tableName = (List.range l).map (specIndexStr k tableName) ∧
    (createIndexStrs k l tableName).length = l := by
  refine ⟨rfl, ?_, by simp [createIndexStrs]⟩
  simp [createIndexStrs, createIndexStr, specIndexStr, bandColumns_eq_map,
    List.map_map, Function.comp_def]

/-- C4: Insert and Query return the size-mismatch error on a wrongly sized
signature before any storage interaction (no transaction begun, no statement
executed) with the table unchanged, and BatchInsert returns the
count-mismatch error before touching storage when the id and signature
counts differ. -/
theorem validation_before_storage :
    (∀ (k l : Nat) (id : Int) (sig : Signature) (rows : List Row),
      sig.length ≠ k * l →
        insertOp k l id sig rows = ⟨rows, some "Signature size mismatch", []⟩) ∧
    (∀ (k l : Nat) (sig : Signature) (rows : List Row),
      sig.length ≠ k * l →
        queryOp k l sig rows = ⟨[], some "Signature size mismatch", []⟩) ∧
    (∀ (k l : Nat) (ids : List Int) (sigs : List Signature) (rows : List Row),
      sigs.length ≠ ids.length →
        batchInsertOp k l ids sigs rows =
          some ⟨rows, some "Number of signatures and ids mismatch", []⟩) := by
  refine ⟨?_, ?_, ?_⟩
  · intro k l id sig rows h
    simp [insertOp, h]
  · intro k l sig rows h
    simp [queryOp, h]
  · intro k l ids sigs rows h
    simp [batchInsertOp, batchValidate, h]

/-- Witness for C4 at concrete inputs. -/
theorem validation_before_storage_witness :
    insertOp 2 2 7 [1, 2, 3] [] = ⟨[], some "Signature size mismatch", []⟩ ∧
    queryOp 2 2 [1, 2, 3] [] = ⟨[], some "Signature size mismatch", []⟩ ∧
    batchInsertOp 2 2 [1] [] [] =
      some ⟨[], some "Number of signatures and ids mismatch", []⟩ :=
  ⟨validation_before_storage.1 2 2 7 [1, 2, 3] [] (by decide),
   validation_before_storage.2.1 2 2 [1, 2, 3] [] (by decide),
   validation_before_storage.2.2 2 2 [1] [] [] (by decide)⟩

/-- C7: the BatchInsert validation prologue passes exactly when the id and
signature counts agree and the first signature has length k*l; later
signatures are not inspected by validation. -/
theorem batchValidate_first_only (k l : Nat) (ids : List Int) (sigs : List Signature) :
    batchValidate k l ids sigs = .passed ↔
      (sigs.length = ids.length ∧
        ∃ s0 rest, sigs = s0 :: rest ∧ s0.length = k * l) := by
  cases sigs with
  | nil =>
    constructor
    · intro h
      simp only [batchValidate] at h
      split at h <;> simp_all
    · rintro ⟨-, s0, rest, habs, -⟩
      cases habs
  | cons s0 rest =>
    simp only [List.length_cons]
    by_cases hc : rest.length + 1 = ids.length
    · by_cases hs : s0.length = k * l
      · simp [batchValidate, hc, hs]
      · simp [batchValidate, hc, hs]
    · simp [batchValidate, hc]

/-- C8 (code bug): an empty batch passed to BatchInsert hits the unchecked
`sigs[0]` access in the validation prologue and panics instead of returning
an error result. -/
theorem batchInsert_empty_panics (k l : Nat) (rows : List Row) :
    batchValidate k l [] [] = .panic ∧ batchInsertOp k l [] [] rows = none :=
  ⟨rfl, rfl⟩

/-- C9 counterexample: with the invalid parameter k = 0 (and l = 1),
construction is not rejected: it executes the CREATE TABLE DDL, commits it
and returns no error. -/
theorem newSqlLsh_no_validation_cex :
    newSqlLsh 0 1 "lshtable" (fun _ => "?") okEnv =
      ⟨none, true, [.beginTx, .execStmt, .commitTx]⟩ := rfl

/-- C9 amended: construction performs no k/l validation at all — for every
k and l (including 0) it proceeds straight to beginning a transaction and
executing the CREATE TABLE DDL, and any error it returns comes from the
storage engine rather than from parameter validation. -/
theorem newSqlLsh_never_validates (k l : Nat) (tableName : String)
    (varFmt : Nat → String) (env : DbEnv) :
    (newSqlLsh k l tableName varFmt env).ops.take 2 = [.beginTx, .execStmt] := by
  unfold newSqlLsh
  cases env.execErr (createTableStr k l tableName) with
  | some e => rfl
  | none =>
    cases env.prepErr (createInsertStr k l tableName varFmt) with
    | some e => rfl
    | none =>
      cases env.prepErr (createQueryStr k l tableName varFmt) with
      | some e => rfl
      | none =>
        cases (createIndexStrs k l tableName).findSome? env.prepErr with
        | some e => rfl
        | none => rfl

/-- C10: when the CREATE TABLE DDL succeeds but preparing the insert, query
or one of the index statements fails, construction returns an error while
the table-creation transaction has already been committed, so the new table
persists. -/
theorem newSqlLsh_table_persists (k l : Nat) (tableName : String)
    (varFmt : Nat → String) (env : DbEnv) (e : String)
    (hexec : env.execErr (createTableStr k l tableName) = none)
    (hprep : env.prepErr (createInsertStr k l tableName varFmt) = some e ∨
      env.prepErr (createQueryStr k l tableName varFmt) = some e ∨
      (createIndexStrs k l tableName).findSome? env.prepErr = some e) :
    (newSqlLsh k l tableName varFmt env).err.isSome = true ∧
    (newSqlLsh k l tableName varFmt env).tableCommitted = true := by
  unfold newSqlLsh
  rw [hexec]
  cases hi : env.prepErr (createInsertStr k l tableName varFmt) with
  | some e2 => exact ⟨rfl, rfl⟩
  | none =>
    cases hq : env.prepErr (createQueryStr k l tableName varFmt) with
    | some e2 => exact ⟨rfl, rfl⟩
    | none =>
      cases hf : (createIndexStrs k l tableName).findSome? env.prepErr with
      | some e2 => exact ⟨rfl, rfl⟩
      | none =>
        rcases hprep with h | h | h
        · rw [hi] at h
          cases h
        · rw [hq] at h
          cases h
        · rw [hf] at h
          cases h

/-- Witness for C10 at concrete inputs. -/
theorem newSqlLsh_table_persists_witness :
    (newSqlLsh 1 1 "lshtable" (fun _ => "?") failPrepEnv).err.isSome = true ∧
    (newSqlLsh 1 1 "lshtable" (fun _ => "?") failPrepEnv).tableCommitted = true :=
  newSqlLsh_table_persists 1 1 "lshtable" (fun _ => "?") failPrepEnv
    "prepare failed" rfl (Or.inl rfl)

theorem keepFirst_sublist (xs : List Int) : (keepFirst xs).Sublist xs := by
  induction xs with
  | nil => exact List.Sublist.refl []
  | cons x xs ih =>
    simp only [keepFirst]
    exact List.Sublist.cons₂ x ((List.filter_sublist _).trans ih)

theorem mem_keepFirst (a : Int) (xs : List Int) : a ∈ keepFirst xs ↔ a ∈ xs := by
  induction xs with
  | nil => simp [keepFirst]
  | cons x xs ih =>
    simp only [keepFirst, List.mem_cons, List.mem_filter]
    constructor
    · rintro (rfl | ⟨h1, -⟩)
      · exact Or.inl rfl
      · exact Or.inr (ih.mp h1)
    · rintro (rfl | h)
      · exact Or.inl rfl
      · by_cases hax : a = x
        · exact Or.inl hax
        · exact Or.inr ⟨ih.mpr h, by simpa using hax⟩

theorem nodup_keepFirst (xs : List Int) : (keepFirst xs).Nodup := by
  induction xs with
  | nil => simp [keepFirst]
  | cons x xs ih =>
    simp only [keepFirst, List.nodup_cons]
    refine ⟨?_, ih.filter _⟩
    intro hmem
    have h2 := (List.mem_filter.mp hmem).2
    simp at h2

theorem keepFirst_filter (p : Int → Bool) (xs : List Int) :
    keepFirst (xs.filter p) = (keepFirst xs).filter p := by
  induction xs with
  | nil => simp [keepFirst]
  | cons x xs ih =>
    by_cases hp : p x
    · simp only [List.filter_cons, hp, if_pos, keepFirst, ih, List.filter_filter]
      congr 1
      apply List.filter_congr
      intro y _
      by_cases hyx : y = x
      · subst hyx
        simp
      · simp [hyx]
    · simp only [List.filter_cons, hp, Bool.false_eq_true, if_neg, keepFirst, ih,
        List.filter_filter, not_false_iff]
      apply List.filter_congr
      intro y _
      by_cases hyx : y = x
      · subst hyx
        simp [hp]
      · simp [hyx]

theorem emitLoop_eq_keepFirst_filter (xs seen : List Int) :
    emitLoop xs seen = keepFirst (xs.filter (fun x => ! seen.contains x)) := by
  induction xs generalizing seen with
  | nil => simp [emitLoop, keepFirst]
  | cons x xs ih =>
    by_cases hx : seen.contains x
    · simp only [emitLoop, hx, if_pos, List.filter_cons, Bool.not_eq_true']
      exact ih seen
    · simp only [emitLoop, hx, Bool.false_eq_true, if_neg, List.filter_cons,
        Bool.not_false, if_pos, not_false_iff, keepFirst]
      rw [ih (x :: seen)]
      have hfe : xs.filter (fun y => ! (x :: seen).contains y) =
          (xs.filter (fun y => ! seen.contains y)).filter (fun y => y ≠ x) := by
        rw [List.filter_filter]
        apply List.filter_congr
        intro y _
        by_cases hyx : y = x
        · subst hyx
          simp
        · simp [hyx, List.contains_cons, bne]
      rw [hfe, keepFirst_filter]

theorem emitLoop_eq_keepFirst (xs : List Int) : emitLoop xs [] = keepFirst xs := by
  rw [emitLoop_eq_keepFirst_filter]
  simp

theorem rowMatches_self (k l : Nat) (sig : Signature) (hl : 1 ≤ l)
    (hlen : sig.length = k * l) : rowMatches k l sig (sig.map some) = true := by
  simp only [rowMatches, List.any_eq_true, List.mem_range]
  refine ⟨0, hl, ?_⟩
  simp only [List.all_eq_true, List.mem_range, Nat.mul_zero, Nat.zero_add]
  intro j hj
  have hjlen : j < sig.length := by
    rw [hlen]
    exact Nat.lt_of_lt_of_le hj (Nat.le_mul_of_pos_right k hl)
  rw [List.getD_eq_getElem?_getD, List.getD_eq_getElem?_getD, List.getElem?_map,
    List.getElem?_eq_getElem hjlen]
  simp [cellMatches]

/-- C2: an inserted (id, signature) pair is always found by querying its own
signature — the stored row agrees with the query on every band, in
particular on band 0, so the id is among the emitted results. -/
theorem query_yields_inserted (k l : Nat) (id : Int) (sig : Signature)
    (rows : List Row) (hk : 1 ≤ k) (hl : 1 ≤ l) (hlen : sig.length = k * l)
    (hmem : (id, sig.map some) ∈ rows) :
    id ∈ (queryOp k l sig rows).out := by
  have hmatch : id ∈ matchingIds k l sig rows := by
    show Prod.fst ((id, sig.map some) : Row) ∈ matchingIds k l sig rows
    exact List.mem_map_of_mem Prod.fst
      (List.mem_filter.mpr ⟨hmem, rowMatches_self k l sig hl hlen⟩)
  have hout : (queryOp k l sig rows).out = keepFirst (matchingIds k l sig rows) := by
    simp [queryOp, hlen, emitLoop_eq_keepFirst]
  rw [hout, mem_keepFirst]
  exact hmatch

/-- Witness for C2 at concrete inputs. -/
theorem query_yields_inserted_witness :
    1 ∈ (queryOp 2 2 [0, 1, 2, 3] [(1, [some 0, some 1, some 2, some 3])]).out :=
  query_yields_inserted 2 2 1 [0, 1, 2, 3] [(1, [some 0, some 1, some 2, some 3])]
    (by decide) (by decide) (by decide) (by decide)

/-- C5: BatchInsert wraps the whole insert loop in one transaction: either
validation rejects the batch before any storage interaction, or every row
insert executes between a single begin and a final commit, or a row insert
fails and the transaction ends in a rollback, the table is left exactly as
before and an error is returned. -/
theorem batchInsert_atomic (k l : Nat) (ids : List Int) (sigs : List Signature)
    (rows : List Row) (res : OpResult)
    (h : batchInsertOp k l ids sigs rows = some res) :
    (res.err = none ∧
      ∃ n, res.ops = .beginTx :: (List.replicate n .execStmt ++ [.commitTx])) ∨
    (res.err.isSome = true ∧ res.rows = rows ∧
      ∃ n, res.ops = .beginTx :: (List.replicate n .execStmt ++ [.rollbackTx])) ∨
    (res.err.isSome = true ∧ res.rows = rows ∧ res.ops = []) := by
  unfold batchInsertOp at h
  cases hv : batchValidate k l ids sigs with
  | panic =>
    rw [hv] at h
    cases h
  | rejected msg =>
    rw [hv] at h
    cases h
    exact Or.inr (Or.inr ⟨rfl, rfl, rfl⟩)
  | passed =>
    rw [hv] at h
    cases hb : batchLoop (k * l) (ids.zip sigs) rows with
    | none =>
      rw [hb] at h
      cases h
    | some pr =>
      rw [hb] at h
      obtain ⟨r, n⟩ := pr
      cases r with
      | none =>
        cases h
        exact Or.inr (Or.inl ⟨rfl, rfl, n, rfl⟩)
      | some rows2 =>
        cases h
        exact Or.inl ⟨rfl, n, rfl⟩

/-- Witness for C5 at a concrete failing batch (duplicate primary key on the
second row). -/
theorem batchInsert_atomic_witness :
    ∃ res : OpResult, batchInsertOp 1 1 [1, 1] [[5], [6]] [] = some res ∧
      ((res.err = none ∧
        ∃ n, res.ops = .beginTx :: (List.replicate n .execStmt ++ [.commitTx])) ∨
      (res.err.isSome = true ∧ res.rows = [] ∧
        ∃ n, res.ops = .beginTx :: (List.replicate n .execStmt ++ [.rollbackTx])) ∨
      (res.err.isSome = true ∧ res.rows = [] ∧ res.ops = [])) :=
  ⟨_, rfl, batchInsert_atomic 1 1 [1, 1] [[5], [6]] [] _ rfl⟩

/-- C6: Query deduplicates in the façade: the emitted ids are exactly the
first occurrences, in row order, of the ids matching the band disjunction —
each id at most once (no duplicates), a subsequence of the raw result — the
dedup being done by the transient seen-set of the result loop and not by the
generated SELECT. -/
theorem query_dedup_spec (k l : Nat) (sig : Signature) (rows : List Row)
    (hlen : sig.length = k * l) :
    (queryOp k l sig rows).out = keepFirst (matchingIds k l sig rows) ∧
    (queryOp k l sig rows).out.Nodup ∧
    (queryOp k l sig rows).out.Sublist (matchingIds k l sig rows) ∧
    (∀ x : Int, x ∈ (queryOp k l sig rows).out ↔ x ∈ matchingIds k l sig rows) := by
  have hout : (queryOp k l sig rows).out = keepFirst (matchingIds k l sig rows) := by
    simp [queryOp, hlen, emitLoop_eq_keepFirst]
  refine ⟨hout, ?_, ?_, ?_⟩
  · rw [hout]
    exact nodup_keepFirst _
  · rw [hout]
    exact keepFirst_sublist _
  · intro x
    rw [hout]
    exact mem_keepFirst x _

/-- Witness for C6 at concrete inputs (a result stream with a repeated id). -/
theorem query_dedup_spec_witness :
    (queryOp 1 1 [5] [(1, [some 5]), (1, [some 5])]).out =
        keepFirst (matchingIds 1 1 [5] [(1, [some 5]), (1, [some 5])]) ∧
    (queryOp 1 1 [5] [(1, [some 5]), (1, [some 5])]).out.Nodup ∧
    (queryOp 1 1 [5] [(1, [some 5]), (1, [some 5])]).out.Sublist
        (matchingIds 1 1 [5] [(1, [some 5]), (1, [some 5])]) ∧
    (∀ x : Int, x ∈ (queryOp 1 1 [5] [(1, [some 5]), (1, [some 5])]).out ↔
        x ∈ matchingIds 1 1 [5] [(1, [some 5]), (1, [some 5])]) :=
  query_dedup_spec 1 1 [5] [(1, [some 5]), (1, [some 5])] (by decide)

end SqlLsh
